import Mathlib

/-!
# PCAP-over-IP packet source (`src/source-pcap-over-ip.c`)

A shallow embedding of the receive module and the properties of it that the
specification states.

Conventions of the embedding.

* Bytes are natural numbers; the stack array `buffer` is a `List Nat`.  Its first
  content is whatever the stack held, so it is an argument of the loop.
* Everything the module calls but does not define (`recv`, the packet pool,
  `PacketCopyData`, `TmThreadsSlotProcessPkt`, `socket`, `inet_pton`, `connect`,
  the allocators) is an external collaborator.  The outcome of each call is
  read from an environment value and every call is appended to a trace of
  `Event`s, in program order.
* `struct pcap_pkthdr` comes from libpcap and its layout depends on the ABI, so
  the layout and the host byte order are carried by a `Platform` value.
* `uint64_t` counters are natural numbers reduced modulo `2 ^ 64`.
-/

namespace PcapOverIP

/-! ## Constants -/

/-- The macro `PCAP_OVER_IP_BUFFER_SIZE` (line 13). -/
def PCAP_OVER_IP_BUFFER_SIZE : Nat := 65536

/-- The macro `PCAP_OVER_IP_RECONNECT_DELAY` (line 14); no function of the module uses it. -/
def PCAP_OVER_IP_RECONNECT_DELAY : Nat := 2

/-- Link type `DLT_EN10MB` of libpcap (Ethernet). -/
def DLT_EN10MB : Nat := 1

/-- Return codes of thread-module functions. -/
inductive TmEcode where
  | TM_ECODE_OK
  | TM_ECODE_FAILED
  | TM_ECODE_DONE
  deriving DecidableEq

/-! ## Platform: byte order and header layout -/

/-- Byte order of the host that runs the module. -/
inductive ByteOrder where
  | little
  | big
  deriving DecidableEq

/-- Value of a byte string read least-significant byte first. -/
def leBytes : List Nat → Nat
  | [] => 0
  | b :: bs => b + 256 * leBytes bs

/-- Value of a byte string read as an unsigned integer in the given byte order. -/
def readUInt (o : ByteOrder) (bs : List Nat) : Nat :=
  match o with
  | ByteOrder.little => leBytes bs
  | ByteOrder.big => leBytes bs.reverse

/-- Offsets and sizes of the members of `struct pcap_pkthdr`
(`struct timeval ts; bpf_u_int32 caplen; bpf_u_int32 len;`). -/
structure HdrLayout where
  tv_sec_off : Nat
  tv_sec_size : Nat
  tv_usec_off : Nat
  tv_usec_size : Nat
  caplen_off : Nat
  len_off : Nat
  size : Nat
  deriving DecidableEq

/-- Modelled from the spec: the layout of `struct pcap_pkthdr` (declared by libpcap,
not under src/) that coincides with the wire header of section 6: four 4-byte fields,
seconds, fraction, captured length, original length; 16 bytes in all.  It is the
layout of an ABI whose `struct timeval` has two 4-byte members. -/
def wireLayout : HdrLayout :=
  { tv_sec_off := 0, tv_sec_size := 4, tv_usec_off := 4, tv_usec_size := 4,
    caplen_off := 8, len_off := 12, size := 16 }

/-- Layout of `struct pcap_pkthdr` on an LP64 ABI, where `struct timeval` has two
8-byte members: 24 bytes in all. -/
def lp64Layout : HdrLayout :=
  { tv_sec_off := 0, tv_sec_size := 8, tv_usec_off := 8, tv_usec_size := 8,
    caplen_off := 16, len_off := 20, size := 24 }

/-- What the compiled module depends on and the source does not fix. -/
structure Platform where
  host : ByteOrder
  hdr : HdrLayout
  deriving DecidableEq

/-- Read the member at offset `off`, `size` bytes wide, of the object at the start of `buf`. -/
def readMember (P : Platform) (buf : List Nat) (off size : Nat) : Nat :=
  readUInt P.host ((buf.drop off).take size)

/-! ## Data model -/

/-- The timestamp of a packet (`SCTime_t`): seconds and sub-second units. -/
structure SCTime where
  secs : Nat
  usecs : Nat
  deriving DecidableEq

/-- Modelled from the spec: the macro `SCTIME_FROM_TIMEVAL` (util-time.h, not under
src/); the spec only says the packet carries the capture timestamp "(seconds,
sub-second units)", so the pair is stored as read. -/
def SCTIME_FROM_TIMEVAL (tv_sec tv_usec : Nat) : SCTime :=
  { secs := tv_sec, usecs := tv_usec }

/-- The fields of `Packet` the module touches. -/
structure Packet where
  ts : SCTime
  datalink : Nat
  pktlen : Nat
  data : List Nat
  deriving DecidableEq

/-- Modelled from the spec: the packet that `PacketGetFromQueueOrAlloc` (packet pool,
not under src/) hands out, "an empty packet buffer". -/
def Packet.fresh : Packet :=
  { ts := { secs := 0, usecs := 0 }, datalink := 0, pktlen := 0, data := [] }

/-- Modelled from the spec: `PacketCopyData` (decode.c, not under src/), when it
succeeds: the packet length becomes `pktlen` and its data the first `pktlen` bytes at
`pktdata` ("copy the payload in").  Only the part of `pktdata` that lies inside the
source array is represented. -/
def PacketCopyData (p : Packet) (pktdata : List Nat) (pktlen : Nat) : Packet :=
  { p with pktlen := pktlen, data := pktdata.take pktlen }

/-- The struct `PcapOverIPThreadVars` (lines 17-28).  The members `tv` and `slot`
are pointers into the host framework and `current_hdr` is never accessed; they are
left out. -/
structure PcapOverIPThreadVars where
  socket_fd : Int
  server_ip : List Char
  server_port : Int
  swapped : Bool
  packets_received : Nat
  bytes_received : Nat
  checksum_mode : Nat
  deriving DecidableEq

/-- Messages the module logs. -/
inductive LogMsg where
  | invalidInputFormat
  | memoryAllocationFailed
  | socketCreationFailed
  | invalidServerIP
  | failedToConnect
  | connected
  | socketReadError
  | failedToAllocatePacket
  | failedToCopyPacketData
  | failedToProcessPacket
  deriving DecidableEq

/-- Calls into the collaborators, as they appear in a trace. -/
inductive Event where
  | recv (ret : Int)
  | SCLog (m : LogMsg)
  | PacketGetFromQueueOrAlloc (ok : Bool)
  | PacketCopyData (pktlen : Nat) (ok : Bool)
  | TmqhOutputPacketpool (p : Packet)
  | TmThreadsSlotProcessPkt (p : Packet) (ok : Bool)
  | SCCalloc (ok : Bool)
  | socket (ret : Int)
  | inet_pton (src : List Char) (ret : Int)
  | connect (ip : List Char) (port : Nat) (ret : Int)
  | close (fd : Int)
  deriving DecidableEq

/-! ## `ReceivePcapOverIPLoop` (lines 152-196) -/

/-- Outcome of one call of `recv`. -/
inductive RecvResult where
  | data (bytes : List Nat)
  | closed
  | error
  deriving DecidableEq

/-- The bytes a call of `recv(fd, buffer, sizeof(buffer), 0)` stores: at most
`sizeof(buffer)` of them. -/
def recvBytes : RecvResult → List Nat
  | RecvResult.data bytes => bytes.take PCAP_OVER_IP_BUFFER_SIZE
  | RecvResult.closed => []
  | RecvResult.error => []

/-- The value `recv` returns. -/
def recvRet : RecvResult → Int
  | RecvResult.data bytes => ((bytes.take PCAP_OVER_IP_BUFFER_SIZE).length : Int)
  | RecvResult.closed => 0
  | RecvResult.error => -1

/-- The array `buffer` after `recv` stored its bytes at the start of it; what lies
behind them keeps its earlier value. -/
def recvInto (buffer : List Nat) (r : RecvResult) : List Nat :=
  recvBytes r ++ buffer.drop (recvBytes r).length

/-- What the collaborators answer during one iteration of the loop that runs while
the stop flag is clear. -/
structure Iter where
  recv : RecvResult
  alloc : Bool
  copy1 : Bool
  copy2 : Bool
  process : Bool
  deriving DecidableEq

/-- State after one iteration, with the calls it made and whether the loop goes on. -/
structure BodyOut where
  ptv : PcapOverIPThreadVars
  buffer : List Nat
  events : List Event
  continues : Bool
  deriving DecidableEq

/-- The member `caplen` of the header at the start of `buffer`. -/
def hdrCaplen (P : Platform) (buffer : List Nat) : Nat :=
  readMember P buffer P.hdr.caplen_off 4

/-- The timestamp `SCTIME_FROM_TIMEVAL(&hdr->ts)` of the header at the start of `buffer`. -/
def hdrTs (P : Platform) (buffer : List Nat) : SCTime :=
  SCTIME_FROM_TIMEVAL (readMember P buffer P.hdr.tv_sec_off P.hdr.tv_sec_size)
    (readMember P buffer P.hdr.tv_usec_off P.hdr.tv_usec_size)

/-- One iteration of the `while` loop (lines 158-192).  Line 183 names `h->caplen`
although no `h` is declared; the only header in scope is `hdr`, and line 183 is read
as `hdr->caplen`. -/
def LoopBody (P : Platform) (ptv : PcapOverIPThreadVars) (buffer : List Nat) (it : Iter) :
    BodyOut :=
  -- bytes_received = recv(ptv->socket_fd, buffer, sizeof(buffer), 0);
  let bytes_received := recvRet it.recv
  let buffer := recvInto buffer it.recv
  if bytes_received ≤ 0 then
    { ptv := ptv, buffer := buffer,
      events := [Event.recv bytes_received, Event.SCLog LogMsg.socketReadError],
      continues := false }
  else
    -- ptv->packets_received++; ptv->bytes_received += bytes_received;
    let ptv := { ptv with
      packets_received := (ptv.packets_received + 1) % 2 ^ 64,
      bytes_received := (ptv.bytes_received + bytes_received.toNat) % 2 ^ 64 }
    -- hdr = (struct pcap_pkthdr *)buffer; data = buffer + sizeof(struct pcap_pkthdr);
    let caplen := hdrCaplen P buffer
    let data := buffer.drop P.hdr.size
    -- Packet *p = PacketGetFromQueueOrAlloc();
    if !it.alloc then
      { ptv := ptv, buffer := buffer,
        events := [Event.recv bytes_received, Event.PacketGetFromQueueOrAlloc false,
          Event.SCLog LogMsg.failedToAllocatePacket],
        continues := false }
    else
      -- p->ts = SCTIME_FROM_TIMEVAL(&hdr->ts); p->datalink = DLT_EN10MB;
      let p := { Packet.fresh with ts := hdrTs P buffer, datalink := DLT_EN10MB }
      -- if (PacketCopyData(p, data, hdr->caplen) < 0) break;
      if !it.copy1 then
        { ptv := ptv, buffer := buffer,
          events := [Event.recv bytes_received, Event.PacketGetFromQueueOrAlloc true,
            Event.PacketCopyData caplen false],
          continues := false }
      else
        let p := PacketCopyData p data caplen
        -- if (unlikely(PacketCopyData(p, data, h->caplen))) { log; release; break; }
        if !it.copy2 then
          { ptv := ptv, buffer := buffer,
            events := [Event.recv bytes_received, Event.PacketGetFromQueueOrAlloc true,
              Event.PacketCopyData caplen true, Event.PacketCopyData caplen false,
              Event.SCLog LogMsg.failedToCopyPacketData, Event.TmqhOutputPacketpool p],
            continues := false }
        else
          let p := PacketCopyData p data caplen
          -- if (TmThreadsSlotProcessPkt(ptv->tv, slot, p) != TM_ECODE_OK) { log; break; }
          if !it.process then
            { ptv := ptv, buffer := buffer,
              events := [Event.recv bytes_received, Event.PacketGetFromQueueOrAlloc true,
                Event.PacketCopyData caplen true, Event.PacketCopyData caplen true,
                Event.TmThreadsSlotProcessPkt p false,
                Event.SCLog LogMsg.failedToProcessPacket],
              continues := false }
          else
            { ptv := ptv, buffer := buffer,
              events := [Event.recv bytes_received, Event.PacketGetFromQueueOrAlloc true,
                Event.PacketCopyData caplen true, Event.PacketCopyData caplen true,
                Event.TmThreadsSlotProcessPkt p true],
              continues := true }

/-- What a run of the loop leaves behind. -/
structure LoopResult where
  ret : TmEcode
  ptv : PcapOverIPThreadVars
  buffer : List Nat
  trace : List Event
  deriving DecidableEq

/-- The function `ReceivePcapOverIPLoop`.  The list holds the iterations that start
with the stop flag clear; when it is used up the flag is found set.  The loop is left
by the flag or by a `break`, and both ways reach `SCReturnInt(TM_ECODE_FAILED)`. -/
def ReceivePcapOverIPLoop (P : Platform) (ptv : PcapOverIPThreadVars) (buffer : List Nat) :
    List Iter → LoopResult
  | [] => { ret := TmEcode.TM_ECODE_FAILED, ptv := ptv, buffer := buffer, trace := [] }
  | it :: rest =>
    let o := LoopBody P ptv buffer it
    if o.continues then
      let r := ReceivePcapOverIPLoop P o.ptv o.buffer rest
      { r with trace := o.events ++ r.trace }
    else
      { ret := TmEcode.TM_ECODE_FAILED, ptv := o.ptv, buffer := o.buffer, trace := o.events }

/-- The packets handed to `TmThreadsSlotProcessPkt`, in order. -/
def submitted : List Event → List Packet
  | [] => []
  | Event.TmThreadsSlotProcessPkt p _ :: es => p :: submitted es
  | _ :: es => submitted es

/-- The packets `TmThreadsSlotProcessPkt` accepted, in order. -/
def accepted : List Event → List Packet
  | [] => []
  | Event.TmThreadsSlotProcessPkt p true :: es => p :: accepted es
  | _ :: es => accepted es

/-- The positive values `recv` returned, in order. -/
def received : List Event → List Nat
  | [] => []
  | Event.recv n :: es => if 0 < n then n.toNat :: received es else received es
  | _ :: es => received es

/-- The lengths `PacketCopyData` was called with, in order. -/
def copyLengths : List Event → List Nat
  | [] => []
  | Event.PacketCopyData n _ :: es => n :: copyLengths es
  | _ :: es => copyLengths es

/-- The packets returned to the pool with `TmqhOutputPacketpool`, in order. -/
def released : List Event → List Packet
  | [] => []
  | Event.TmqhOutputPacketpool p :: es => p :: released es
  | _ :: es => released es

/-- Whether the event opens or connects a socket. -/
def isConnectAttempt : Event → Bool
  | Event.socket _ => true
  | Event.connect _ _ _ => true
  | _ => false

/-! ## `ParsePcapOverIPInput` (lines 58-86) -/

/-- The terminator of a C string. -/
def NUL : Char := Char.ofNat 0

/-- The C string held by `s`: its characters up to the first NUL. -/
def cstr (s : List Char) : List Char :=
  s.takeWhile (fun c => c != NUL)

/-- The literal `"tcp@"`. -/
def tcpPrefix : List Char := ['t', 'c', 'p', '@']

/-- The call `strchr(s, c)` for a character `c` other than NUL: the index of the first
`c` in the string, or `none` for a null pointer. -/
def strchr (s : List Char) (c : Char) : Option Nat :=
  match s with
  | [] => none
  | x :: xs => if x = c then some 0 else (strchr xs c).map (fun i => i + 1)

/-- The C library's `isspace` in the "C" locale. -/
def isspace (c : Char) : Bool :=
  c.toNat = 32 || (9 ≤ c.toNat && c.toNat ≤ 13)

/-- The C library's `isdigit`. -/
def isdigit (c : Char) : Bool :=
  48 ≤ c.toNat && c.toNat ≤ 57

/-- The value of the longest run of decimal digits at the start of the string,
continuing from `acc`. -/
def digitsValue (acc : Nat) : List Char → Nat
  | [] => acc
  | c :: cs => if isdigit c then digitsValue (acc * 10 + (c.toNat - 48)) cs else acc

/-- The C library's `strtol(s, NULL, 10)` with a 64-bit `long`: white space, an
optional sign, digits; out-of-range values are clamped.  The width of `long` only
matters for numerals beyond the range of `int`. -/
def strtol (s : List Char) : Int :=
  match s.dropWhile isspace with
  | '-' :: r => max (-(2 ^ 63 : Int)) (-(digitsValue 0 r : Int))
  | '+' :: r => min (2 ^ 63 - 1 : Int) (digitsValue 0 r : Int)
  | r => min (2 ^ 63 - 1 : Int) (digitsValue 0 r : Int)

/-- Conversion of an integer to a 32-bit `int`. -/
def toInt32 (x : Int) : Int :=
  (x + 2 ^ 31) % 2 ^ 32 - 2 ^ 31

/-- The C library's `atoi`, which is `(int) strtol(s, NULL, 10)`. -/
def atoi (s : List Char) : Int :=
  toInt32 (strtol s)

/-- Whether the two calls of `strdup` in `ParsePcapOverIPInput` return memory. -/
structure ParseEnv where
  strdup_input : Bool
  strdup_ip : Bool
  deriving DecidableEq

/-- The return value of `ParsePcapOverIPInput` and the two objects its out-parameters
point to (`none` is the null pointer). -/
structure ParseOut where
  ret : Int
  server_ip : Option (List Char)
  server_port : Int
  deriving DecidableEq

/-- The function `ParsePcapOverIPInput`.  `input` is `none` for a null pointer;
`server_ip` and `server_port` are the objects the (non-null) out-parameters point to
at the call. -/
def ParsePcapOverIPInput (env : ParseEnv) (input : Option (List Char))
    (server_ip : Option (List Char)) (server_port : Int) : ParseOut :=
  match input with
  | none => { ret := -1, server_ip := server_ip, server_port := server_port }
  | some input =>
    -- char *input_copy = strdup(input);
    if !env.strdup_input then
      { ret := -1, server_ip := server_ip, server_port := server_port }
    else
      let input_copy := cstr input
      -- if (strncmp(input_copy, "tcp@", 4) != 0)
      if input_copy.take 4 ≠ tcpPrefix then
        { ret := -1, server_ip := server_ip, server_port := server_port }
      else
        -- char *colon = strchr(input_copy + 4, ':');
        match strchr (input_copy.drop 4) ':' with
        | none => { ret := -1, server_ip := server_ip, server_port := server_port }
        | some colon =>
          -- *colon = 0; *server_ip = strdup(input_copy + 4); *server_port = atoi(colon + 1);
          let ip : Option (List Char) :=
            if env.strdup_ip then some ((input_copy.drop 4).take colon) else none
          let port := atoi ((input_copy.drop 4).drop (colon + 1))
          { ret := if ip.isSome ∧ port > 0 then 0 else -1, server_ip := ip, server_port := port }

/-! ## `ReceivePcapOverIPThreadInit` (lines 89-140) -/

/-- The port number that `htons(x)` denotes for an `int` argument: the argument
converted to `uint16_t`; the network byte order changes the representation, not the
number. -/
def htons (x : Int) : Nat :=
  (x % 65536).toNat

/-- What the collaborators answer during `ReceivePcapOverIPThreadInit`. -/
structure InitEnv where
  parse : ParseEnv
  calloc : Bool
  socket : Int
  inet_pton : List Char → Int
  connect : Int

/-- The return value of `ReceivePcapOverIPThreadInit`, the value stored in `*data`
(`none` when nothing is stored) and the calls made. -/
structure InitResult where
  ret : TmEcode
  data : Option PcapOverIPThreadVars
  trace : List Event
  deriving DecidableEq

/-- A thread-variables value as `SCCalloc` and `ReceivePcapOverIPThreadInit` leave it:
all counters zero. -/
def PcapOverIPThreadVars.init (fd : Int) (ip : List Char) (port : Int) :
    PcapOverIPThreadVars :=
  { socket_fd := fd, server_ip := ip, server_port := port, swapped := false,
    packets_received := 0, bytes_received := 0, checksum_mode := 0 }

/-- The function `ReceivePcapOverIPThreadInit`; `initdata` is `none` for a null pointer. -/
def ReceivePcapOverIPThreadInit (env : InitEnv) (initdata : Option (List Char)) : InitResult :=
  -- char *server_ip = NULL; int server_port = 0;
  let r := ParsePcapOverIPInput env.parse initdata none 0
  if r.ret < 0 then
    { ret := TmEcode.TM_ECODE_FAILED, data := none,
      trace := [Event.SCLog LogMsg.invalidInputFormat] }
  else if !env.calloc then
    { ret := TmEcode.TM_ECODE_FAILED, data := none,
      trace := [Event.SCCalloc false, Event.SCLog LogMsg.memoryAllocationFailed] }
  else
    let ip := r.server_ip.getD []
    -- ptv->socket_fd = socket(AF_INET, SOCK_STREAM, 0);
    let ptv := PcapOverIPThreadVars.init env.socket ip r.server_port
    if env.socket < 0 then
      { ret := TmEcode.TM_ECODE_FAILED, data := none,
        trace := [Event.SCCalloc true, Event.socket env.socket,
          Event.SCLog LogMsg.socketCreationFailed] }
    -- server_addr.sin_port = htons(ptv->server_port); inet_pton(AF_INET, ptv->server_ip, ...)
    else if env.inet_pton ip ≤ 0 then
      { ret := TmEcode.TM_ECODE_FAILED, data := none,
        trace := [Event.SCCalloc true, Event.socket env.socket,
          Event.inet_pton ip (env.inet_pton ip), Event.SCLog LogMsg.invalidServerIP,
          Event.close env.socket] }
    else if env.connect < 0 then
      { ret := TmEcode.TM_ECODE_FAILED, data := none,
        trace := [Event.SCCalloc true, Event.socket env.socket,
          Event.inet_pton ip (env.inet_pton ip),
          Event.connect ip (htons ptv.server_port) env.connect,
          Event.SCLog LogMsg.failedToConnect, Event.close env.socket] }
    else
      { ret := TmEcode.TM_ECODE_OK, data := some ptv,
        trace := [Event.SCCalloc true, Event.socket env.socket,
          Event.inet_pton ip (env.inet_pton ip),
          Event.connect ip (htons ptv.server_port) env.connect,
          Event.SCLog LogMsg.connected] }

/-! ## Record streams, as the specification describes them -/

/-- A record of the stream: header bytes and payload bytes. -/
structure Record where
  hdr : List Nat
  payload : List Nat
  deriving DecidableEq

/-- The bytes of a record on the wire. -/
def Record.bytes (r : Record) : List Nat :=
  r.hdr ++ r.payload

/-- The field at bytes `off .. off + 3` of a wire header, read in byte order `o`. -/
def wireField (o : ByteOrder) (hdr : List Nat) (off : Nat) : Nat :=
  readUInt o ((hdr.drop off).take 4)

/-- A valid record for a reader of byte order `o`: a 16-byte header followed by
exactly captured-length payload bytes, the captured length being the field at bytes
8..11. -/
def Record.valid (o : ByteOrder) (r : Record) : Prop :=
  r.hdr.length = 16 ∧ wireField o r.hdr 8 = r.payload.length

instance (o : ByteOrder) (r : Record) : Decidable (Record.valid o r) := by
  unfold Record.valid; infer_instance

/-- The packet the specification expects for a record: Ethernet link type, the
timestamp of the header, the payload. -/
def Record.packet (o : ByteOrder) (r : Record) : Packet :=
  { ts := SCTIME_FROM_TIMEVAL (wireField o r.hdr 0) (wireField o r.hdr 4),
    datalink := DLT_EN10MB, pktlen := r.payload.length, data := r.payload }

/-- The members of `struct pcap_pkthdr` that the loop reads lie inside the struct. -/
def HdrLayout.wellFormed (L : HdrLayout) : Prop :=
  L.tv_sec_off + L.tv_sec_size ≤ L.size ∧ L.tv_usec_off + L.tv_usec_size ≤ L.size ∧
    L.caplen_off + 4 ≤ L.size

instance (L : HdrLayout) : Decidable L.wellFormed := by
  unfold HdrLayout.wellFormed; infer_instance

/-- A record in the form the build for platform `P` reads: the header is an image of
that platform's `struct pcap_pkthdr`, `sizeof(struct pcap_pkthdr)` bytes with the
members in host byte order, and the payload has exactly `caplen` bytes. -/
def Record.validFor (P : Platform) (r : Record) : Prop :=
  r.hdr.length = P.hdr.size ∧ hdrCaplen P r.hdr = r.payload.length

instance (P : Platform) (r : Record) : Decidable (Record.validFor P r) := by
  unfold Record.validFor; infer_instance

/-- The packet of a record in the form platform `P` reads: Ethernet link type, the
timestamp held by the member `ts` of the header, the payload. -/
def Record.packetFor (P : Platform) (r : Record) : Packet :=
  { ts := hdrTs P r.hdr, datalink := DLT_EN10MB, pktlen := r.payload.length,
    data := r.payload }

/-- An iteration in which `recv` delivers `chunk` and every other collaborator
succeeds. -/
def deliver (chunk : List Nat) : Iter :=
  { recv := RecvResult.data chunk, alloc := true, copy1 := true, copy2 := true,
    process := true }

/-- The platform whose header layout is the wire layout. -/
def wirePlatform (o : ByteOrder) : Platform :=
  { host := o, hdr := wireLayout }

/-! ## Concrete inputs -/

/-- The array `buffer` with every byte zero. -/
def zeroBuffer : List Nat := List.replicate PCAP_OVER_IP_BUFFER_SIZE 0

/-- The little-endian platform with the wire layout. -/
def lePlatform : Platform := wirePlatform ByteOrder.little

/-- Thread variables right after a successful `ReceivePcapOverIPThreadInit`. -/
def exPtv : PcapOverIPThreadVars :=
  PcapOverIPThreadVars.init 3 ['1', '2', '7', '.', '0', '.', '0', '.', '1'] 4000

/-- A little-endian header: seconds 1, fraction 2, captured length 2, original length 2. -/
def exHdr : List Nat := [1, 0, 0, 0, 2, 0, 0, 0, 2, 0, 0, 0, 2, 0, 0, 0]

/-- A record with the two payload bytes `0xAA 0xBB`. -/
def exRecord : Record := { hdr := exHdr, payload := [170, 187] }

/-- A second record: seconds 3, fraction 4, one payload byte `0xCC`. -/
def exRecord2 : Record :=
  { hdr := [3, 0, 0, 0, 4, 0, 0, 0, 1, 0, 0, 0, 1, 0, 0, 0], payload := [204] }

/-- The header of `exRecord` written by a big-endian peer. -/
def exHdrSwapped : List Nat := [0, 0, 0, 1, 0, 0, 0, 2, 0, 0, 0, 2, 0, 0, 0, 2]

/-- A little-endian header whose captured length is 70000 (`0x00011170`). -/
def exHdrOversized : List Nat := [1, 0, 0, 0, 2, 0, 0, 0, 112, 17, 1, 0, 112, 17, 1, 0]

/-- The little-endian platform with the LP64 layout. -/
def lp64Platform : Platform := { host := ByteOrder.little, hdr := lp64Layout }

/-- A record whose header is an image of the 24-byte LP64 `struct pcap_pkthdr`:
seconds 1, microseconds 2, captured length 2, original length 2; payload `0xAA 0xBB`. -/
def exRecordLp64 : Record :=
  { hdr := [1, 0, 0, 0, 0, 0, 0, 0, 2, 0, 0, 0, 0, 0, 0, 0, 2, 0, 0, 0, 2, 0, 0, 0],
    payload := [170, 187] }

/-- The record of `exRecord` as a big-endian peer writes it. -/
def exRecordSwapped : Record := { hdr := exHdrSwapped, payload := [170, 187] }

/-- An iteration in which `recv` delivers `chunk`, the pool hands out a packet and
`PacketCopyData` fails. -/
def deliverCopyFails (chunk : List Nat) : Iter :=
  { recv := RecvResult.data chunk, alloc := true, copy1 := false, copy2 := false,
    process := false }

/-- An iteration in which `recv` reports `r` and nothing else is reached. -/
def recvOnly (r : RecvResult) : Iter :=
  { recv := r, alloc := true, copy1 := true, copy2 := true, process := true }

/-- The descriptor `tcp@127.0.0.1:4000` of the specification. -/
def exDescriptor : List Char :=
  ['t', 'c', 'p', '@', '1', '2', '7', '.', '0', '.', '0', '.', '1', ':', '4', '0', '0', '0']

/-- The descriptor `tcp@127.0.0.1:70000`. -/
def exDescriptorBigPort : List Char :=
  ['t', 'c', 'p', '@', '1', '2', '7', '.', '0', '.', '0', '.', '1', ':', '7', '0', '0', '0', '0']

/-- The descriptor `udp@1.2.3.4:5`, without the prefix `tcp@`. -/
def exDescriptorUdp : List Char :=
  ['u', 'd', 'p', '@', '1', '.', '2', '.', '3', '.', '4', ':', '5']

/-- The descriptor `tcp@1.2.3.4`, without a colon after the prefix. -/
def exDescriptorNoColon : List Char :=
  ['t', 'c', 'p', '@', '1', '.', '2', '.', '3', '.', '4']

/-- The descriptor `tcp@1.2.3.4:0`, with the port zero. -/
def exDescriptorPortZero : List Char :=
  ['t', 'c', 'p', '@', '1', '.', '2', '.', '3', '.', '4', ':', '0']

/-- The host `127.0.0.1`. -/
def exHost : List Char := ['1', '2', '7', '.', '0', '.', '0', '.', '1']

/-- An environment in which every call of `ReceivePcapOverIPThreadInit` succeeds;
`inet_pton` accepts every non-empty string. -/
def okInitEnv : InitEnv :=
  { parse := { strdup_input := true, strdup_ip := true }, calloc := true, socket := 3,
    inet_pton := fun s => if s = [] then 0 else 1, connect := 0 }

/-! ## Lemmas on the loop -/

theorem recvBytes_data_of_le (c : List Nat) (h : c.length ≤ PCAP_OVER_IP_BUFFER_SIZE) :
    recvBytes (RecvResult.data c) = c := by
  simp [recvBytes, List.take_of_length_le h]

theorem take_drop_append_of_le (l x : List Nat) (off n : Nat) (h : off + n ≤ l.length) :
    ((l ++ x).drop off).take n = (l.drop off).take n := by
  rw [List.drop_append_of_le_length (by omega), List.take_append_of_le_length]
  simp; omega

theorem wireField_append (o : ByteOrder) (hdr x : List Nat) (off : Nat)
    (h : off + 4 ≤ hdr.length) :
    readUInt o (((hdr ++ x).drop off).take 4) = wireField o hdr off := by
  unfold wireField
  rw [take_drop_append_of_le hdr x off 4 h]

/-- The iteration that receives one whole valid record, followed by any further bytes
of the same `recv`, and in which the pool and both copies succeed: one packet goes
downstream and it is the record's packet. -/
theorem LoopBody_record (o : ByteOrder) (ptv : PcapOverIPThreadVars)
    (buffer : List Nat) (r : Record) (extra : List Nat) (process : Bool) (hv : r.valid o)
    (hlen : (r.bytes ++ extra).length ≤ PCAP_OVER_IP_BUFFER_SIZE) :
    (LoopBody (wirePlatform o) ptv buffer
      { recv := RecvResult.data (r.bytes ++ extra), alloc := true, copy1 := true,
        copy2 := true, process := process }).continues = process ∧
    submitted (LoopBody (wirePlatform o) ptv buffer
      { recv := RecvResult.data (r.bytes ++ extra), alloc := true, copy1 := true,
        copy2 := true, process := process }).events = [r.packet o] := by
  obtain ⟨h16, hcap⟩ := hv
  have hb : recvBytes (RecvResult.data (r.bytes ++ extra)) = r.bytes ++ extra :=
    recvBytes_data_of_le _ hlen
  have hret : recvRet (RecvResult.data (r.bytes ++ extra))
      = ((r.bytes ++ extra).length : Int) := by
    have := congrArg List.length hb
    simp only [recvBytes] at this
    simp only [recvRet, this]
  have hpos : ¬ ((r.bytes ++ extra).length : Int) ≤ 0 := by
    simp only [Record.bytes, List.length_append, h16]; omega
  have hbuf : recvInto buffer (RecvResult.data (r.bytes ++ extra))
      = r.hdr ++ (r.payload ++ (extra ++ buffer.drop (r.bytes ++ extra).length)) := by
    unfold recvInto; rw [hb]; simp [Record.bytes]
  have hc : hdrCaplen (wirePlatform o)
      (r.hdr ++ (r.payload ++ (extra ++ buffer.drop (r.bytes ++ extra).length)))
      = r.payload.length := by
    unfold hdrCaplen readMember
    simp only [wirePlatform, wireLayout]
    rw [wireField_append o r.hdr _ 8 (by omega), hcap]
  have hts : hdrTs (wirePlatform o)
      (r.hdr ++ (r.payload ++ (extra ++ buffer.drop (r.bytes ++ extra).length)))
      = SCTIME_FROM_TIMEVAL (wireField o r.hdr 0) (wireField o r.hdr 4) := by
    unfold hdrTs readMember
    simp only [wirePlatform, wireLayout]
    rw [wireField_append o r.hdr _ 0 (by omega), wireField_append o r.hdr _ 4 (by omega)]
  have hdata : ((r.hdr ++ (r.payload ++ (extra ++ buffer.drop (r.bytes ++ extra).length))).drop
      (wirePlatform o).hdr.size).take r.payload.length = r.payload := by
    simp only [wirePlatform, wireLayout]
    rw [List.drop_append_of_le_length (by omega), ← h16, List.drop_length, List.nil_append,
      List.take_append_of_le_length (le_refl _), List.take_length]
  unfold LoopBody
  cases process <;>
  simp only [hret, hbuf, hc, hts, hpos, if_false, Bool.not_true, Bool.not_false,
    Bool.false_eq_true, if_true, PacketCopyData, hdata, submitted, Record.packet, Packet.fresh,
    and_self]

/-- The iteration that receives one whole record in the form the platform reads,
followed by any further bytes of the same `recv`, and in which the pool and both
copies succeed: one packet goes downstream and it is the record's packet. -/
theorem LoopBody_record_for (P : Platform) (ptv : PcapOverIPThreadVars)
    (buffer : List Nat) (r : Record) (extra : List Nat) (process : Bool)
    (hL : P.hdr.wellFormed) (hv : r.validFor P)
    (hlen : (r.bytes ++ extra).length ≤ PCAP_OVER_IP_BUFFER_SIZE) :
    (LoopBody P ptv buffer
      { recv := RecvResult.data (r.bytes ++ extra), alloc := true, copy1 := true,
        copy2 := true, process := process }).continues = process ∧
    submitted (LoopBody P ptv buffer
      { recv := RecvResult.data (r.bytes ++ extra), alloc := true, copy1 := true,
        copy2 := true, process := process }).events = [r.packetFor P] := by
  obtain ⟨hsize, hcap⟩ := hv
  obtain ⟨hsec, husec, hcl⟩ := hL
  have hb : recvBytes (RecvResult.data (r.bytes ++ extra)) = r.bytes ++ extra :=
    recvBytes_data_of_le _ hlen
  have hret : recvRet (RecvResult.data (r.bytes ++ extra))
      = ((r.bytes ++ extra).length : Int) := by
    have := congrArg List.length hb
    simp only [recvBytes] at this
    simp only [recvRet, this]
  have hpos : ¬ ((r.bytes ++ extra).length : Int) ≤ 0 := by
    simp only [Record.bytes, List.length_append, hsize]; omega
  have hbuf : recvInto buffer (RecvResult.data (r.bytes ++ extra))
      = r.hdr ++ (r.payload ++ (extra ++ buffer.drop (r.bytes ++ extra).length)) := by
    unfold recvInto; rw [hb]; simp [Record.bytes]
  have hc : hdrCaplen P
      (r.hdr ++ (r.payload ++ (extra ++ buffer.drop (r.bytes ++ extra).length)))
      = r.payload.length := by
    rw [← hcap]
    unfold hdrCaplen readMember
    rw [take_drop_append_of_le r.hdr _ P.hdr.caplen_off 4 (by omega)]
  have hts : hdrTs P
      (r.hdr ++ (r.payload ++ (extra ++ buffer.drop (r.bytes ++ extra).length)))
      = hdrTs P r.hdr := by
    unfold hdrTs readMember
    rw [take_drop_append_of_le r.hdr _ P.hdr.tv_sec_off P.hdr.tv_sec_size (by omega),
      take_drop_append_of_le r.hdr _ P.hdr.tv_usec_off P.hdr.tv_usec_size (by omega)]
  have hdata : ((r.hdr ++ (r.payload ++ (extra ++ buffer.drop (r.bytes ++ extra).length))).drop
      P.hdr.size).take r.payload.length = r.payload := by
    rw [← hsize, List.drop_left, List.take_left]
  unfold LoopBody
  cases process <;>
  simp only [hret, hbuf, hc, hts, hpos, if_false, Bool.not_true, Bool.not_false,
    Bool.false_eq_true, if_true, PacketCopyData, hdata, submitted, Record.packetFor,
    Packet.fresh, and_self]

/-- On the wire layout the records the build reads are the valid records of the wire
format in the host's byte order, and their packets agree. -/
theorem validFor_wirePlatform (o : ByteOrder) (r : Record) :
    (r.validFor (wirePlatform o) ↔ r.valid o) ∧ r.packetFor (wirePlatform o) = r.packet o :=
  ⟨Iff.rfl, rfl⟩

theorem submitted_append (a b : List Event) :
    submitted (a ++ b) = submitted a ++ submitted b := by
  induction a with
  | nil => rfl
  | cons e es ih => cases e <;> simp [submitted, ih]

theorem received_append (a b : List Event) :
    received (a ++ b) = received a ++ received b := by
  induction a with
  | nil => rfl
  | cons e es ih =>
    cases e <;> simp [received, ih]
    split_ifs <;> simp

/-- Every branch of the loop body starts with the call of `recv`, and the counters
move exactly when that call returned a positive count. -/
theorem LoopBody_counters (P : Platform) (ptv : PcapOverIPThreadVars) (buffer : List Nat)
    (it : Iter) :
    (0 < recvRet it.recv →
      received (LoopBody P ptv buffer it).events = [(recvRet it.recv).toNat] ∧
      (LoopBody P ptv buffer it).ptv.packets_received = (ptv.packets_received + 1) % 2 ^ 64 ∧
      (LoopBody P ptv buffer it).ptv.bytes_received
        = (ptv.bytes_received + (recvRet it.recv).toNat) % 2 ^ 64) ∧
    (recvRet it.recv ≤ 0 →
      received (LoopBody P ptv buffer it).events = [] ∧
      (LoopBody P ptv buffer it).ptv = ptv ∧
      (LoopBody P ptv buffer it).continues = false) := by
  constructor
  · intro h
    have h' : ¬ recvRet it.recv ≤ 0 := by omega
    unfold LoopBody
    simp only [h', if_false]
    split_ifs <;> simp [received, h]
  · intro h
    unfold LoopBody
    simp only [h, if_true, received]
    have h' : ¬ 0 < recvRet it.recv := by omega
    simp [h']

/-- The loop body never changes the flag `swapped`. -/
theorem LoopBody_swapped (P : Platform) (ptv : PcapOverIPThreadVars) (buffer : List Nat)
    (it : Iter) : (LoopBody P ptv buffer it).ptv.swapped = ptv.swapped := by
  unfold LoopBody
  dsimp only
  split_ifs <;> rfl

/-- The loop body neither opens nor connects a socket. -/
theorem LoopBody_no_connect (P : Platform) (ptv : PcapOverIPThreadVars) (buffer : List Nat)
    (it : Iter) : ∀ e ∈ (LoopBody P ptv buffer it).events, isConnectAttempt e = false := by
  unfold LoopBody
  dsimp only
  split_ifs <;> simp [isConnectAttempt]

/-- Every length given to `PacketCopyData` in an iteration is the member `caplen`
of the buffer as `recv` left it, read in host order. -/
theorem LoopBody_copyLengths (P : Platform) (ptv : PcapOverIPThreadVars) (buffer : List Nat)
    (it : Iter) : ∀ n ∈ copyLengths (LoopBody P ptv buffer it).events,
      n = readUInt P.host (((recvInto buffer it.recv).drop P.hdr.caplen_off).take 4) := by
  unfold LoopBody
  dsimp only
  split_ifs <;> simp [copyLengths, hdrCaplen, readMember]

/-! ## Lemmas on whole runs -/

/-- A run returns `TM_ECODE_FAILED` however it ends. -/
theorem Loop_ret (P : Platform) (ptv : PcapOverIPThreadVars) (buffer : List Nat)
    (env : List Iter) : (ReceivePcapOverIPLoop P ptv buffer env).ret = TmEcode.TM_ECODE_FAILED := by
  induction env generalizing ptv buffer with
  | nil => rfl
  | cons it rest ih =>
    simp only [ReceivePcapOverIPLoop]
    split_ifs
    · exact ih _ _
    · rfl

/-- A run never opens or connects a socket. -/
theorem Loop_no_connect (P : Platform) (ptv : PcapOverIPThreadVars) (buffer : List Nat)
    (env : List Iter) :
    ∀ e ∈ (ReceivePcapOverIPLoop P ptv buffer env).trace, isConnectAttempt e = false := by
  induction env generalizing ptv buffer with
  | nil => simp [ReceivePcapOverIPLoop]
  | cons it rest ih =>
    simp only [ReceivePcapOverIPLoop]
    split_ifs
    · intro e he
      rcases List.mem_append.mp he with h | h
      · exact LoopBody_no_connect P ptv buffer it e h
      · exact ih _ _ e h
    · exact LoopBody_no_connect P ptv buffer it

/-- A run never changes the flag `swapped`. -/
theorem Loop_swapped (P : Platform) (ptv : PcapOverIPThreadVars) (buffer : List Nat)
    (env : List Iter) : (ReceivePcapOverIPLoop P ptv buffer env).ptv.swapped = ptv.swapped := by
  induction env generalizing ptv buffer with
  | nil => rfl
  | cons it rest ih =>
    simp only [ReceivePcapOverIPLoop]
    split_ifs
    · simp only [ih, LoopBody_swapped]
    · exact LoopBody_swapped P ptv buffer it

/-- The counters after a run, from counters that fit in 64 bits. -/
theorem Loop_counters (P : Platform) (ptv : PcapOverIPThreadVars) (buffer : List Nat)
    (env : List Iter) (hp : ptv.packets_received < 2 ^ 64) (hb : ptv.bytes_received < 2 ^ 64) :
    (ReceivePcapOverIPLoop P ptv buffer env).ptv.packets_received
      = (ptv.packets_received
          + (received (ReceivePcapOverIPLoop P ptv buffer env).trace).length) % 2 ^ 64 ∧
    (ReceivePcapOverIPLoop P ptv buffer env).ptv.bytes_received
      = (ptv.bytes_received
          + (received (ReceivePcapOverIPLoop P ptv buffer env).trace).sum) % 2 ^ 64 := by
  induction env generalizing ptv buffer with
  | nil =>
    simp only [ReceivePcapOverIPLoop, received, List.length_nil, List.sum_nil, Nat.add_zero]
    exact ⟨(Nat.mod_eq_of_lt hp).symm, (Nat.mod_eq_of_lt hb).symm⟩
  | cons it rest ih =>
    obtain ⟨hpos, hneg⟩ := LoopBody_counters P ptv buffer it
    by_cases hr : 0 < recvRet it.recv
    · obtain ⟨h1, h2, h3⟩ := hpos hr
      simp only [ReceivePcapOverIPLoop]
      split_ifs
      · have hp' : (LoopBody P ptv buffer it).ptv.packets_received < 2 ^ 64 := by
          rw [h2]; exact Nat.mod_lt _ (by norm_num)
        have hb' : (LoopBody P ptv buffer it).ptv.bytes_received < 2 ^ 64 := by
          rw [h3]; exact Nat.mod_lt _ (by norm_num)
        obtain ⟨i1, i2⟩ := ih (LoopBody P ptv buffer it).ptv (LoopBody P ptv buffer it).buffer
          hp' hb'
        simp only [received_append, h1, List.length_append, List.length_cons, List.length_nil,
          List.sum_append, List.sum_cons, List.sum_nil, i1, i2, h2, h3]
        constructor
        · omega
        · omega
      · simp only [h1, List.length_cons, List.length_nil, List.sum_cons, List.sum_nil, h2, h3]
        simp
    · have hr' : recvRet it.recv ≤ 0 := by omega
      obtain ⟨h1, h2, h3⟩ := hneg hr'
      simp only [ReceivePcapOverIPLoop, h3, Bool.false_eq_true, if_false, h1, h2,
        List.length_nil, List.sum_nil, Nat.add_zero]
      exact ⟨(Nat.mod_eq_of_lt hp).symm, (Nat.mod_eq_of_lt hb).symm⟩

/-! ## Framing (C1, C7) -/

/-- C1, as the specification states it, fails.  (a) A valid one-record stream cut
into two non-empty chunks, header and payload, makes the loop submit two packets,
neither with the payload of the record, where the same stream in one `recv` gives the
record's packet.  (b) A valid two-record stream delivered in one `recv` gives one
packet, where one `recv` per record gives two. -/
theorem C1_fragmentation_counterexample :
    exRecord.valid ByteOrder.little ∧ exRecord2.valid ByteOrder.little ∧
    exRecord.hdr ++ exRecord.payload = exRecord.bytes ∧
    exRecord.hdr ≠ [] ∧ exRecord.payload ≠ [] ∧
    submitted (ReceivePcapOverIPLoop lePlatform exPtv zeroBuffer
        [deliver exRecord.hdr, deliver exRecord.payload]).trace
      ≠ submitted (ReceivePcapOverIPLoop lePlatform exPtv zeroBuffer
        [deliver exRecord.bytes]).trace ∧
    submitted (ReceivePcapOverIPLoop lePlatform exPtv zeroBuffer
        [deliver exRecord.bytes, deliver exRecord2.bytes]).trace
      ≠ submitted (ReceivePcapOverIPLoop lePlatform exPtv zeroBuffer
        [deliver (exRecord.bytes ++ exRecord2.bytes)]).trace := by
  have split : submitted (ReceivePcapOverIPLoop lePlatform exPtv zeroBuffer
      [deliver exRecord.hdr, deliver exRecord.payload]).trace
      = [{ ts := { secs := 1, usecs := 2 }, datalink := 1, pktlen := 2, data := [0, 0] },
         { ts := { secs := 48042, usecs := 2 }, datalink := 1, pktlen := 2, data := [0, 0] }] := by
    decide
  have whole : submitted (ReceivePcapOverIPLoop lePlatform exPtv zeroBuffer
      [deliver exRecord.bytes]).trace
      = [{ ts := { secs := 1, usecs := 2 }, datalink := 1, pktlen := 2, data := [170, 187] }] := by
    decide
  have perRecord : submitted (ReceivePcapOverIPLoop lePlatform exPtv zeroBuffer
      [deliver exRecord.bytes, deliver exRecord2.bytes]).trace
      = [{ ts := { secs := 1, usecs := 2 }, datalink := 1, pktlen := 2, data := [170, 187] },
         { ts := { secs := 3, usecs := 4 }, datalink := 1, pktlen := 1, data := [204] }] := by
    decide
  have oneRecv : submitted (ReceivePcapOverIPLoop lePlatform exPtv zeroBuffer
      [deliver (exRecord.bytes ++ exRecord2.bytes)]).trace
      = [{ ts := { secs := 1, usecs := 2 }, datalink := 1, pktlen := 2, data := [170, 187] }] := by
    decide
  rw [split, whole, perRecord, oneRecv]
  decide

/-- C1, amended: on every platform whose `struct pcap_pkthdr` holds the members the
loop reads, for every stream of records in the form that platform reads (header an
image of the struct in host byte order, `sizeof(struct pcap_pkthdr)` bytes, followed
by exactly `caplen` payload bytes), each at most as long as the receive buffer, that
`recv` delivers one whole record per call, with the pool, both copies and the
submissions succeeding, the loop submits the packets of the records, one per record
and in order.  On the wire layout these are the valid records of the wire format in
the host's byte order. -/
theorem C1_one_record_per_recv (P : Platform) (ptv : PcapOverIPThreadVars)
    (buffer : List Nat) (rs : List Record) (hL : P.hdr.wellFormed)
    (hv : ∀ r ∈ rs, r.validFor P)
    (hlen : ∀ r ∈ rs, r.bytes.length ≤ PCAP_OVER_IP_BUFFER_SIZE) :
    submitted (ReceivePcapOverIPLoop P ptv buffer
      (rs.map (fun r => deliver r.bytes))).trace = rs.map (Record.packetFor P) := by
  induction rs generalizing ptv buffer with
  | nil => rfl
  | cons r rest ih =>
    have hr := LoopBody_record_for P ptv buffer r [] true hL (hv r (List.mem_cons_self _ _))
      (by simpa using hlen r (List.mem_cons_self _ _))
    simp only [List.append_nil] at hr
    have ih' := fun ptv buffer => ih ptv buffer
      (fun x hx => hv x (List.mem_cons_of_mem _ hx))
      (fun x hx => hlen x (List.mem_cons_of_mem _ hx))
    simp only [List.map_cons, ReceivePcapOverIPLoop, deliver, hr.1, if_true, submitted_append,
      hr.2]
    simp only [deliver] at ih'
    rw [ih']
    rfl

/-- C1, amended, at a stream of two records of the wire format on the wire layout. -/
theorem C1_one_record_per_recv_witness :
    lePlatform.hdr.wellFormed ∧
    (∀ r ∈ [exRecord, exRecord2], r.validFor lePlatform) ∧
    (∀ r ∈ [exRecord, exRecord2], r.bytes.length ≤ PCAP_OVER_IP_BUFFER_SIZE) ∧
    submitted (ReceivePcapOverIPLoop lePlatform exPtv zeroBuffer
      ([exRecord, exRecord2].map (fun r => deliver r.bytes))).trace
      = [exRecord, exRecord2].map (Record.packetFor lePlatform) :=
  ⟨by decide, by decide, by decide,
    C1_one_record_per_recv lePlatform exPtv zeroBuffer [exRecord, exRecord2]
      (by decide) (by decide) (by decide)⟩

/-- The same at a stream of two 24-byte-header records on the LP64 layout. -/
theorem Loop_one_record_per_recv_lp64 :
    submitted (ReceivePcapOverIPLoop lp64Platform exPtv zeroBuffer
      ([exRecordLp64, exRecordLp64].map (fun r => deliver r.bytes))).trace
      = [exRecordLp64, exRecordLp64].map (Record.packetFor lp64Platform) := by
  decide

/-- C7, as the specification states it, fails.  Each of these records is laid out as
the wire format states, and the packet the claim describes is not what the loop
submits.  (a) The payload arrives in the `recv` after the header: two packets are
submitted, both with a stale byte as data.  (b) The record arrives behind another one
in the same `recv`: no packet is submitted for it.  (c) `struct pcap_pkthdr` has the
24-byte LP64 layout: the length is read from bytes 16..19 and the time from bytes
0..15.  (d) The header is in the byte order opposite to the host's: time and length
are the unswapped readings. -/
theorem C7_record_counterexample :
    exRecord.valid ByteOrder.little ∧ exRecord2.valid ByteOrder.little ∧
    exRecordSwapped.valid ByteOrder.big ∧
    exRecord2.packet ByteOrder.little ∉
      submitted (ReceivePcapOverIPLoop lePlatform exPtv zeroBuffer
        [deliver exRecord2.hdr, deliver exRecord2.payload]).trace ∧
    submitted (ReceivePcapOverIPLoop lePlatform exPtv zeroBuffer
        [deliver exRecord2.hdr, deliver exRecord2.payload]).trace
      = [{ ts := { secs := 3, usecs := 4 }, datalink := 1, pktlen := 1, data := [0] },
         { ts := { secs := 204, usecs := 4 }, datalink := 1, pktlen := 1, data := [0] }] ∧
    exRecord.packet ByteOrder.little ∉
      submitted (ReceivePcapOverIPLoop lePlatform exPtv zeroBuffer
        [deliver (exRecord2.bytes ++ exRecord.bytes)]).trace ∧
    submitted (ReceivePcapOverIPLoop lePlatform exPtv zeroBuffer
        [deliver (exRecord2.bytes ++ exRecord.bytes)]).trace
      = [{ ts := { secs := 3, usecs := 4 }, datalink := 1, pktlen := 1, data := [204] }] ∧
    (submitted (ReceivePcapOverIPLoop lp64Platform exPtv zeroBuffer
        [deliver exRecord.bytes]).trace).map (fun p => (p.ts, p.pktlen))
      = [({ secs := 8589934593, usecs := 8589934594 }, 48042)] ∧
    ((exRecord.packet ByteOrder.little).ts, (exRecord.packet ByteOrder.little).pktlen)
      = ({ secs := 1, usecs := 2 }, 2) ∧
    (submitted (ReceivePcapOverIPLoop lePlatform exPtv zeroBuffer
        [deliver exRecordSwapped.bytes]).trace).map (fun p => (p.ts, p.pktlen))
      = [({ secs := 16777216, usecs := 33554432 }, 33554432)] ∧
    ((exRecordSwapped.packet ByteOrder.big).ts, (exRecordSwapped.packet ByteOrder.big).pktlen)
      = ({ secs := 1, usecs := 2 }, 2) := by
  have split : submitted (ReceivePcapOverIPLoop lePlatform exPtv zeroBuffer
      [deliver exRecord2.hdr, deliver exRecord2.payload]).trace
      = [{ ts := { secs := 3, usecs := 4 }, datalink := 1, pktlen := 1, data := [0] },
         { ts := { secs := 204, usecs := 4 }, datalink := 1, pktlen := 1, data := [0] }] := by
    decide
  have second : submitted (ReceivePcapOverIPLoop lePlatform exPtv zeroBuffer
      [deliver (exRecord2.bytes ++ exRecord.bytes)]).trace
      = [{ ts := { secs := 3, usecs := 4 }, datalink := 1, pktlen := 1, data := [204] }] := by
    decide
  rw [split, second]
  decide

/-- C7, amended: when `struct pcap_pkthdr` has the 16-byte wire layout and one `recv`
delivers, at the start of the buffer, a whole record valid in the host's byte order
(with whatever follows it in the same call, at most the buffer size in all), and the
pool and both copies succeed, the one packet the iteration hands to `TmThreadsSlotProcessPkt`
has link type `DLT_EN10MB`, the timestamp made of the header fields at bytes 0..3
and 4..7, and as data exactly the captured-length bytes from offset 16 of the
record, which are its payload. -/
theorem C7_submitted_packet (o : ByteOrder) (ptv : PcapOverIPThreadVars)
    (buffer : List Nat) (r : Record) (extra : List Nat) (process : Bool) (hv : r.valid o)
    (hlen : (r.bytes ++ extra).length ≤ PCAP_OVER_IP_BUFFER_SIZE) :
    ∃ p, submitted (LoopBody (wirePlatform o) ptv buffer
        { recv := RecvResult.data (r.bytes ++ extra), alloc := true, copy1 := true,
          copy2 := true, process := process }).events = [p] ∧
      p.datalink = DLT_EN10MB ∧
      p.ts = { secs := wireField o r.hdr 0, usecs := wireField o r.hdr 4 } ∧
      p.pktlen = wireField o r.hdr 8 ∧
      p.data = (r.bytes.drop 16).take (wireField o r.hdr 8) ∧
      p.data = r.payload := by
  refine ⟨r.packet o, (LoopBody_record o ptv buffer r extra process hv hlen).2, rfl, rfl,
    hv.2.symm, ?_, rfl⟩
  obtain ⟨h16, hcap⟩ := hv
  simp only [Record.packet, Record.bytes, hcap]
  rw [List.drop_append_of_le_length (by omega), ← h16, List.drop_length, List.nil_append,
    List.take_length]

/-- C7, amended, at a concrete record followed by the first bytes of the next one. -/
theorem C7_submitted_packet_witness :
    exRecord.valid ByteOrder.little ∧
    (exRecord.bytes ++ [3, 0, 0]).length ≤ PCAP_OVER_IP_BUFFER_SIZE ∧
    ∃ p, submitted (LoopBody (wirePlatform ByteOrder.little) exPtv zeroBuffer
        { recv := RecvResult.data (exRecord.bytes ++ [3, 0, 0]), alloc := true, copy1 := true,
          copy2 := true, process := true }).events = [p] ∧
      p.datalink = DLT_EN10MB ∧
      p.ts = { secs := wireField ByteOrder.little exRecord.hdr 0,
               usecs := wireField ByteOrder.little exRecord.hdr 4 } ∧
      p.pktlen = wireField ByteOrder.little exRecord.hdr 8 ∧
      p.data = (exRecord.bytes.drop 16).take (wireField ByteOrder.little exRecord.hdr 8) ∧
      p.data = exRecord.payload :=
  ⟨by decide, by decide,
    C7_submitted_packet ByteOrder.little exPtv zeroBuffer exRecord [3, 0, 0] true
      (by decide) (by decide)⟩

/-- With the 24-byte LP64 layout of `struct pcap_pkthdr` the same record of the wire
format is read differently: the 8-byte time members span bytes 0..15, and the
length comes from bytes 16..19, where the wire format has the payload. -/
theorem LoopBody_lp64_reads_other_bytes :
    (submitted (LoopBody { host := ByteOrder.little, hdr := lp64Layout } exPtv zeroBuffer
      (deliver exRecord.bytes)).events).map (fun p => (p.ts, p.datalink, p.pktlen))
      = [({ secs := 8589934593, usecs := 8589934594 }, DLT_EN10MB, 48042)] := by
  decide

/-! ## Length validation (C2) -/

/-- C2, as the specification states it, fails: a header whose captured length is
70000, more than `PCAP_OVER_IP_BUFFER_SIZE` and more than the sixteen bytes received,
reaches `PacketCopyData` with that very length; no malformed-stream error precedes
the call. -/
theorem C2_oversized_length_counterexample :
    hdrCaplen lePlatform (recvInto zeroBuffer (RecvResult.data exHdrOversized)) = 70000 ∧
    PCAP_OVER_IP_BUFFER_SIZE < 70000 ∧
    (LoopBody lePlatform exPtv zeroBuffer (deliverCopyFails exHdrOversized)).events
      = [Event.recv 16, Event.PacketGetFromQueueOrAlloc true,
         Event.PacketCopyData 70000 false] := by
  decide

/-- C2, amended: in every iteration in which `recv` returns bytes and the pool hands
out a packet, `PacketCopyData` is called, and every call of it gets the captured length
of the header as it stands in the buffer, whatever its size; when the first call
fails, the run ends there with `TM_ECODE_FAILED` and no packet is submitted. -/
theorem C2_length_passed_unchecked (P : Platform) (ptv : PcapOverIPThreadVars)
    (buffer : List Nat) (it : Iter) (rest : List Iter) (hr : 0 < recvRet it.recv)
    (ha : it.alloc = true) :
    copyLengths (LoopBody P ptv buffer it).events ≠ [] ∧
    (∀ n ∈ copyLengths (LoopBody P ptv buffer it).events,
      n = hdrCaplen P (recvInto buffer it.recv)) ∧
    (it.copy1 = false →
      (ReceivePcapOverIPLoop P ptv buffer (it :: rest)).ret = TmEcode.TM_ECODE_FAILED ∧
      (ReceivePcapOverIPLoop P ptv buffer (it :: rest)).trace
        = [Event.recv (recvRet it.recv), Event.PacketGetFromQueueOrAlloc true,
           Event.PacketCopyData (hdrCaplen P (recvInto buffer it.recv)) false] ∧
      submitted (ReceivePcapOverIPLoop P ptv buffer (it :: rest)).trace = []) := by
  have hr' : ¬ recvRet it.recv ≤ 0 := by omega
  refine ⟨?_, ?_, ?_⟩
  · unfold LoopBody
    dsimp only
    simp only [hr', if_false, ha, Bool.not_true, Bool.false_eq_true]
    split_ifs <;> simp [copyLengths]
  · exact LoopBody_copyLengths P ptv buffer it
  · intro hc
    simp only [ReceivePcapOverIPLoop, LoopBody, hr', if_false, ha, hc, Bool.not_true,
      Bool.not_false, Bool.false_eq_true, if_true, submitted, and_self]

/-- C2, amended, at the header that announces 70000 bytes. -/
theorem C2_length_passed_unchecked_witness :
    0 < recvRet (deliverCopyFails exHdrOversized).recv ∧
    (deliverCopyFails exHdrOversized).alloc = true ∧
    copyLengths (LoopBody lePlatform exPtv zeroBuffer
      (deliverCopyFails exHdrOversized)).events ≠ [] ∧
    (∀ n ∈ copyLengths (LoopBody lePlatform exPtv zeroBuffer
        (deliverCopyFails exHdrOversized)).events,
      n = hdrCaplen lePlatform (recvInto zeroBuffer (deliverCopyFails exHdrOversized).recv)) ∧
    ((deliverCopyFails exHdrOversized).copy1 = false →
      (ReceivePcapOverIPLoop lePlatform exPtv zeroBuffer
        (deliverCopyFails exHdrOversized :: [])).ret = TmEcode.TM_ECODE_FAILED ∧
      (ReceivePcapOverIPLoop lePlatform exPtv zeroBuffer
        (deliverCopyFails exHdrOversized :: [])).trace
        = [Event.recv (recvRet (deliverCopyFails exHdrOversized).recv),
           Event.PacketGetFromQueueOrAlloc true,
           Event.PacketCopyData
            (hdrCaplen lePlatform (recvInto zeroBuffer (deliverCopyFails exHdrOversized).recv))
            false] ∧
      submitted (ReceivePcapOverIPLoop lePlatform exPtv zeroBuffer
        (deliverCopyFails exHdrOversized :: [])).trace = []) :=
  ⟨by decide, by decide,
    C2_length_passed_unchecked lePlatform exPtv zeroBuffer (deliverCopyFails exHdrOversized) []
      (by decide) (by decide)⟩

/-! ## Counters (C3) -/

/-- C3, as the specification states it, fails.  (a) After one record with a 2-byte
payload has been accepted downstream, `bytes_received` is 18, the size of the whole
`recv`, header included.  (b) An iteration whose packet allocation fails has already
moved both counters. -/
theorem C3_counters_counterexample :
    accepted (ReceivePcapOverIPLoop lePlatform exPtv zeroBuffer
      [deliver exRecord.bytes]).trace = [exRecord.packet ByteOrder.little] ∧
    exRecord.payload.length = 2 ∧
    (ReceivePcapOverIPLoop lePlatform exPtv zeroBuffer
      [deliver exRecord.bytes]).ptv.packets_received = 1 ∧
    (ReceivePcapOverIPLoop lePlatform exPtv zeroBuffer
      [deliver exRecord.bytes]).ptv.bytes_received = 18 ∧
    accepted (ReceivePcapOverIPLoop lePlatform exPtv zeroBuffer
      [{ recv := RecvResult.data exRecord.bytes, alloc := false, copy1 := false,
         copy2 := false, process := false }]).trace = [] ∧
    (ReceivePcapOverIPLoop lePlatform exPtv zeroBuffer
      [{ recv := RecvResult.data exRecord.bytes, alloc := false, copy1 := false,
         copy2 := false, process := false }]).ptv.packets_received = 1 ∧
    (ReceivePcapOverIPLoop lePlatform exPtv zeroBuffer
      [{ recv := RecvResult.data exRecord.bytes, alloc := false, copy1 := false,
         copy2 := false, process := false }]).ptv.bytes_received = 18 := by
  decide

/-- C3, amended: for every run from zeroed counters, `packets_received` is the number
of calls of `recv` that returned a positive count and `bytes_received` is the sum of
those counts (headers included), both modulo `2 ^ 64`, whether or not the allocation,
the copy or the submission that followed succeeded. -/
theorem C3_counters_count_recv (P : Platform) (fd : Int) (ip : List Char) (port : Int)
    (buffer : List Nat) (env : List Iter) :
    (ReceivePcapOverIPLoop P (PcapOverIPThreadVars.init fd ip port) buffer env).ptv.packets_received
      = (received (ReceivePcapOverIPLoop P (PcapOverIPThreadVars.init fd ip port)
          buffer env).trace).length % 2 ^ 64 ∧
    (ReceivePcapOverIPLoop P (PcapOverIPThreadVars.init fd ip port) buffer env).ptv.bytes_received
      = (received (ReceivePcapOverIPLoop P (PcapOverIPThreadVars.init fd ip port)
          buffer env).trace).sum % 2 ^ 64 := by
  have h := Loop_counters P (PcapOverIPThreadVars.init fd ip port) buffer env
    (by simp [PcapOverIPThreadVars.init]) (by simp [PcapOverIPThreadVars.init])
  simpa [PcapOverIPThreadVars.init] using h

/-! ## Byte order (C8) -/

/-- C8, as the specification states it, fails: for a record whose header a big-endian
peer wrote (captured length 2), a little-endian host leaves `swapped` false and calls
`PacketCopyData` with the unswapped reading of the field, 33554432. -/
theorem C8_swapped_counterexample :
    wireField ByteOrder.big exHdrSwapped 8 = 2 ∧
    ({ hdr := exHdrSwapped, payload := [170, 187] } : Record).valid ByteOrder.big ∧
    (ReceivePcapOverIPLoop lePlatform exPtv zeroBuffer
      [deliverCopyFails (exHdrSwapped ++ [170, 187])]).ptv.swapped = false ∧
    copyLengths (ReceivePcapOverIPLoop lePlatform exPtv zeroBuffer
      [deliverCopyFails (exHdrSwapped ++ [170, 187])]).trace = [33554432] ∧
    copyLengths (ReceivePcapOverIPLoop lePlatform exPtv zeroBuffer
      [deliver (exHdrSwapped ++ [170, 187])]).trace = [33554432, 33554432] ∧
    (ReceivePcapOverIPLoop lePlatform exPtv zeroBuffer
      [deliver (exHdrSwapped ++ [170, 187])]).ptv.swapped = false := by
  decide

/-- C8, amended: no run changes the flag `swapped`, and in every iteration the length
given to `PacketCopyData` is the captured-length field read in the byte order of the
host, never its byte-swapped value. -/
theorem C8_no_byte_order_detection (P : Platform) (ptv : PcapOverIPThreadVars)
    (buffer : List Nat) (env : List Iter) (it : Iter) :
    (ReceivePcapOverIPLoop P ptv buffer env).ptv.swapped = ptv.swapped ∧
    (∀ n ∈ copyLengths (LoopBody P ptv buffer it).events,
      n = readUInt P.host (((recvInto buffer it.recv).drop P.hdr.caplen_off).take 4)) :=
  ⟨Loop_swapped P ptv buffer env, LoopBody_copyLengths P ptv buffer it⟩

/-! ## Closed and failed connections (C9) -/

/-- C9, as the specification states it, fails: when `recv` returns 0, and when it
returns -1, with the stop flag clear, the run ends at once with `TM_ECODE_FAILED`;
its trace holds the call of `recv` and the log line, and no call that opens or
connects a socket. -/
theorem C9_reconnect_counterexample :
    (ReceivePcapOverIPLoop lePlatform exPtv zeroBuffer
      [recvOnly RecvResult.closed, deliver exRecord.bytes]).ret = TmEcode.TM_ECODE_FAILED ∧
    (ReceivePcapOverIPLoop lePlatform exPtv zeroBuffer
      [recvOnly RecvResult.closed, deliver exRecord.bytes]).trace
      = [Event.recv 0, Event.SCLog LogMsg.socketReadError] ∧
    (ReceivePcapOverIPLoop lePlatform exPtv zeroBuffer
      [recvOnly RecvResult.error, deliver exRecord.bytes]).ret = TmEcode.TM_ECODE_FAILED ∧
    (ReceivePcapOverIPLoop lePlatform exPtv zeroBuffer
      [recvOnly RecvResult.error, deliver exRecord.bytes]).trace
      = [Event.recv (-1), Event.SCLog LogMsg.socketReadError] := by
  decide

/-- C9, amended: whenever `recv` returns zero or a negative value while the stop flag
is clear, the loop logs the read error, makes no reconnection attempt, runs no further
iteration and returns `TM_ECODE_FAILED`; no run of the loop opens or connects a
socket, and every run returns `TM_ECODE_FAILED`. -/
theorem C9_read_failure_ends_run (P : Platform) (ptv : PcapOverIPThreadVars)
    (buffer : List Nat) (it : Iter) (rest env : List Iter) (hr : recvRet it.recv ≤ 0) :
    (ReceivePcapOverIPLoop P ptv buffer (it :: rest)).ret = TmEcode.TM_ECODE_FAILED ∧
    (ReceivePcapOverIPLoop P ptv buffer (it :: rest)).trace
      = [Event.recv (recvRet it.recv), Event.SCLog LogMsg.socketReadError] ∧
    (ReceivePcapOverIPLoop P ptv buffer (it :: rest)).ptv = ptv ∧
    (ReceivePcapOverIPLoop P ptv buffer env).ret = TmEcode.TM_ECODE_FAILED ∧
    (∀ e ∈ (ReceivePcapOverIPLoop P ptv buffer env).trace, isConnectAttempt e = false) := by
  refine ⟨Loop_ret _ _ _ _, ?_, ?_, Loop_ret _ _ _ _, Loop_no_connect _ _ _ _⟩
  · simp only [ReceivePcapOverIPLoop, LoopBody, hr, if_true, Bool.false_eq_true, if_false]
  · simp only [ReceivePcapOverIPLoop, LoopBody, hr, if_true, Bool.false_eq_true, if_false]

/-- C9, amended, at a clean close by the peer. -/
theorem C9_read_failure_ends_run_witness :
    recvRet (recvOnly RecvResult.closed).recv ≤ 0 ∧
    (ReceivePcapOverIPLoop lePlatform exPtv zeroBuffer
      (recvOnly RecvResult.closed :: [deliver exRecord.bytes])).ret
      = TmEcode.TM_ECODE_FAILED ∧
    (ReceivePcapOverIPLoop lePlatform exPtv zeroBuffer
      (recvOnly RecvResult.closed :: [deliver exRecord.bytes])).trace
      = [Event.recv (recvRet (recvOnly RecvResult.closed).recv),
         Event.SCLog LogMsg.socketReadError] ∧
    (ReceivePcapOverIPLoop lePlatform exPtv zeroBuffer
      (recvOnly RecvResult.closed :: [deliver exRecord.bytes])).ptv = exPtv ∧
    (ReceivePcapOverIPLoop lePlatform exPtv zeroBuffer
      [deliver exRecord.bytes, recvOnly RecvResult.error]).ret = TmEcode.TM_ECODE_FAILED ∧
    (∀ e ∈ (ReceivePcapOverIPLoop lePlatform exPtv zeroBuffer
      [deliver exRecord.bytes, recvOnly RecvResult.error]).trace, isConnectAttempt e = false) :=
  ⟨by decide,
    C9_read_failure_ends_run lePlatform exPtv zeroBuffer (recvOnly RecvResult.closed)
      [deliver exRecord.bytes] [deliver exRecord.bytes, recvOnly RecvResult.error] (by decide)⟩

/-! ## Release of the packet buffer (C10) -/

/-- C10 at the failing input: `recv` delivers a header that announces 70000 bytes, the
pool hands out a packet and the first `PacketCopyData` fails.  The run ends without
`TmqhOutputPacketpool` and without a submission: the packet is dropped unreleased.
The second check, four lines further down, releases the packet on the same failure. -/
theorem C10_first_copy_failure_leaks :
    (ReceivePcapOverIPLoop lePlatform exPtv zeroBuffer
      [deliverCopyFails exHdrOversized]).trace
      = [Event.recv 16, Event.PacketGetFromQueueOrAlloc true,
         Event.PacketCopyData 70000 false] ∧
    released (ReceivePcapOverIPLoop lePlatform exPtv zeroBuffer
      [deliverCopyFails exHdrOversized]).trace = [] ∧
    submitted (ReceivePcapOverIPLoop lePlatform exPtv zeroBuffer
      [deliverCopyFails exHdrOversized]).trace = [] ∧
    (released (ReceivePcapOverIPLoop lePlatform exPtv zeroBuffer
      [{ recv := RecvResult.data exRecord.bytes, alloc := true, copy1 := true,
         copy2 := false, process := false }]).trace).length = 1 := by
  decide

/-- In every iteration whose first `PacketCopyData` fails after the pool handed out a
packet, nothing is released and nothing is submitted. -/
theorem LoopBody_first_copy_failure (P : Platform) (ptv : PcapOverIPThreadVars)
    (buffer : List Nat) (it : Iter) (hr : 0 < recvRet it.recv) (ha : it.alloc = true)
    (hc : it.copy1 = false) :
    released (LoopBody P ptv buffer it).events = [] ∧
    submitted (LoopBody P ptv buffer it).events = [] ∧
    (LoopBody P ptv buffer it).continues = false := by
  have hr' : ¬ recvRet it.recv ≤ 0 := by omega
  simp only [LoopBody, hr', if_false, ha, hc, Bool.not_true, Bool.not_false,
    Bool.false_eq_true, if_true, submitted, released, and_self]

/-- In every iteration whose second `PacketCopyData` fails the packet goes back to
the pool. -/
theorem LoopBody_second_copy_failure (P : Platform) (ptv : PcapOverIPThreadVars)
    (buffer : List Nat) (it : Iter) (hr : 0 < recvRet it.recv) (ha : it.alloc = true)
    (hc : it.copy1 = true) (hc2 : it.copy2 = false) :
    (released (LoopBody P ptv buffer it).events).length = 1 ∧
    submitted (LoopBody P ptv buffer it).events = [] := by
  have hr' : ¬ recvRet it.recv ≤ 0 := by omega
  simp only [LoopBody, hr', if_false, ha, hc, hc2, Bool.not_true, Bool.not_false,
    Bool.false_eq_true, if_true, submitted, released, List.length_singleton, and_self]

/-- In every iteration whose submission fails the loop itself releases nothing. -/
theorem LoopBody_process_failure (P : Platform) (ptv : PcapOverIPThreadVars)
    (buffer : List Nat) (it : Iter) (hr : 0 < recvRet it.recv) (ha : it.alloc = true)
    (hc : it.copy1 = true) (hc2 : it.copy2 = true) (hp : it.process = false) :
    released (LoopBody P ptv buffer it).events = [] ∧
    accepted (LoopBody P ptv buffer it).events = [] ∧
    (LoopBody P ptv buffer it).continues = false := by
  have hr' : ¬ recvRet it.recv ≤ 0 := by omega
  simp only [LoopBody, hr', if_false, ha, hc, hc2, hp, Bool.not_true, Bool.not_false,
    Bool.false_eq_true, if_true, accepted, released, and_self]

/-! ## Lemmas on the parser -/

theorem strchr_eq_none_of_not_mem (s : List Char) (c : Char) (h : c ∉ s) :
    strchr s c = none := by
  induction s with
  | nil => rfl
  | cons x xs ih =>
    have hx : ¬ x = c := fun e => h (by simp [e])
    have hxs : c ∉ xs := fun e => h (List.mem_cons_of_mem _ e)
    simp [strchr, hx, ih hxs]

theorem strchr_append_cons (host t : List Char) (c : Char) (h : c ∉ host) :
    strchr (host ++ c :: t) c = some host.length := by
  induction host with
  | nil => simp [strchr]
  | cons x xs ih =>
    have hx : ¬ x = c := fun e => h (by simp [e])
    have hxs : c ∉ xs := fun e => h (List.mem_cons_of_mem _ e)
    simp [strchr, hx, ih hxs]

/-- The parser returns 0 or -1. -/
theorem Parse_ret_cases (env : ParseEnv) (input : Option (List Char))
    (ip : Option (List Char)) (port : Int) :
    (ParsePcapOverIPInput env input ip port).ret = 0 ∨
    (ParsePcapOverIPInput env input ip port).ret = -1 := by
  cases input with
  | none => exact Or.inr rfl
  | some inp =>
    cases h1 : env.strdup_input with
    | false => simp [ParsePcapOverIPInput, h1]
    | true =>
      by_cases h2 : List.take 4 (cstr inp) = tcpPrefix
      · cases hs : strchr (List.drop 4 (cstr inp)) ':' with
        | none => simp [ParsePcapOverIPInput, h1, h2, hs]
        | some colon =>
          simp only [ParsePcapOverIPInput, h1, h2, hs, Bool.not_true, Bool.false_eq_true,
            if_false, ne_eq, not_true_eq_false]
          split_ifs <;> simp
      · simp [ParsePcapOverIPInput, h1, h2]

/-- A descriptor the parser accepts left a host in `*server_ip` and a positive
number in `*server_port`. -/
theorem Parse_accept (env : ParseEnv) (input : Option (List Char))
    (h : (ParsePcapOverIPInput env input none 0).ret = 0) :
    (∃ ip, (ParsePcapOverIPInput env input none 0).server_ip = some ip) ∧
    0 < (ParsePcapOverIPInput env input none 0).server_port := by
  cases input with
  | none => simp [ParsePcapOverIPInput] at h
  | some inp =>
    cases h1 : env.strdup_input with
    | false => simp [ParsePcapOverIPInput, h1] at h
    | true =>
      by_cases h2 : List.take 4 (cstr inp) = tcpPrefix
      · cases hs : strchr (List.drop 4 (cstr inp)) ':' with
        | none => simp [ParsePcapOverIPInput, h1, h2, hs] at h
        | some colon =>
          cases h3 : env.strdup_ip with
          | false => simp [ParsePcapOverIPInput, h1, h2, hs, h3] at h
          | true =>
            simp only [ParsePcapOverIPInput, h1, h2, hs, h3, Bool.not_true, Bool.false_eq_true,
              if_false, ne_eq, not_true_eq_false, if_true, Option.isSome_some, true_and] at h ⊢
            split_ifs at h with hp
            exact ⟨⟨_, rfl⟩, hp⟩
      · simp [ParsePcapOverIPInput, h1, h2] at h

/-- When the parser fails, thread initialisation fails right after it: one log line,
no other call, nothing stored in `*data`. -/
theorem ThreadInit_of_parse_failure (env : InitEnv) (initdata : Option (List Char))
    (h : (ParsePcapOverIPInput env.parse initdata none 0).ret = -1) :
    ReceivePcapOverIPThreadInit env initdata
      = { ret := TmEcode.TM_ECODE_FAILED, data := none,
          trace := [Event.SCLog LogMsg.invalidInputFormat] } := by
  unfold ReceivePcapOverIPThreadInit
  simp [h]

theorem digitChar_spec : ∀ k, k < 10 →
    isdigit (Nat.digitChar k) = true ∧ (Nat.digitChar k).toNat - 48 = k ∧
    isspace (Nat.digitChar k) = false ∧ Nat.digitChar k ≠ '-' ∧ Nat.digitChar k ≠ '+' ∧
    Nat.digitChar k ≠ NUL := by
  decide

theorem toDigitsCore_append (fuel : Nat) : ∀ (n : Nat) (ds : List Char),
    Nat.toDigitsCore 10 fuel n ds = Nat.toDigitsCore 10 fuel n [] ++ ds := by
  induction fuel with
  | zero => intro n ds; simp [Nat.toDigitsCore]
  | succ f ih =>
    intro n ds
    simp only [Nat.toDigitsCore]
    split_ifs
    · simp
    · rw [ih (n / 10) (Nat.digitChar (n % 10) :: ds), ih (n / 10) [Nat.digitChar (n % 10)]]
      simp

theorem digitsValue_append (xs ys : List Char) (hx : ∀ c ∈ xs, isdigit c = true) :
    ∀ acc, digitsValue acc (xs ++ ys) = digitsValue (digitsValue acc xs) ys := by
  induction xs with
  | nil => intro acc; rfl
  | cons x xs ih =>
    intro acc
    have h1 : isdigit x = true := hx x (List.mem_cons_self _ _)
    have h2 : ∀ c ∈ xs, isdigit c = true := fun c hc => hx c (List.mem_cons_of_mem _ hc)
    simp only [List.cons_append, digitsValue, h1, if_true]
    exact ih h2 _

theorem toDigitsCore_isdigit (fuel : Nat) : ∀ (n : Nat),
    ∀ c ∈ Nat.toDigitsCore 10 fuel n [], isdigit c = true ∧ c ≠ NUL := by
  induction fuel with
  | zero => intro n c hc; simp [Nat.toDigitsCore] at hc
  | succ f ih =>
    intro n c hc
    have hd := digitChar_spec (n % 10) (Nat.mod_lt _ (by norm_num))
    simp only [Nat.toDigitsCore] at hc
    split_ifs at hc
    · simp only [List.mem_singleton] at hc
      subst hc
      exact ⟨hd.1, hd.2.2.2.2.2⟩
    · rw [toDigitsCore_append] at hc
      rcases List.mem_append.mp hc with h | h
      · exact ih _ c h
      · simp only [List.mem_singleton] at h
        subst h
        exact ⟨hd.1, hd.2.2.2.2.2⟩

theorem digitsValue_toDigitsCore (fuel : Nat) : ∀ (n : Nat), n < fuel →
    digitsValue 0 (Nat.toDigitsCore 10 fuel n []) = n := by
  induction fuel with
  | zero => intro n h; omega
  | succ f ih =>
    intro n h
    have hd := digitChar_spec (n % 10) (Nat.mod_lt _ (by norm_num))
    simp only [Nat.toDigitsCore]
    split_ifs with h0
    · simp only [digitsValue, hd.1, if_true, hd.2.1]
      have := Nat.div_add_mod n 10
      omega
    · rw [toDigitsCore_append,
        digitsValue_append _ _ (fun c hc => (toDigitsCore_isdigit f (n / 10) c hc).1),
        ih (n / 10) (by omega)]
      simp only [digitsValue, hd.1, if_true, hd.2.1]
      have := Nat.div_add_mod n 10
      omega

/-- The decimal numeral of `p` starts with a digit. -/
theorem toDigits_eq_cons (p : Nat) : ∃ d ds, Nat.toDigits 10 p = d :: ds ∧
    isdigit d = true ∧ isspace d = false ∧ d ≠ '-' ∧ d ≠ '+' := by
  have key : ∀ fuel n, ∃ d ds, Nat.toDigitsCore 10 (fuel + 1) n [] = d :: ds ∧
      ∃ k, k < 10 ∧ d = Nat.digitChar k := by
    intro fuel
    induction fuel with
    | zero =>
      intro n
      refine ⟨Nat.digitChar (n % 10), [], ?_, n % 10, Nat.mod_lt _ (by norm_num), rfl⟩
      simp [Nat.toDigitsCore]
    | succ f ih =>
      intro n
      rw [Nat.toDigitsCore]
      split_ifs
      · exact ⟨_, [], rfl, n % 10, Nat.mod_lt _ (by norm_num), rfl⟩
      · obtain ⟨d, ds, h1, h2⟩ := ih (n / 10)
        rw [toDigitsCore_append, h1]
        exact ⟨d, ds ++ [Nat.digitChar (n % 10)], rfl, h2⟩
  obtain ⟨d, ds, h1, k, hk, hd⟩ := key p p
  have hs := digitChar_spec k hk
  refine ⟨d, ds, h1, ?_⟩
  rw [hd]
  exact ⟨hs.1, hs.2.2.1, hs.2.2.2.1, hs.2.2.2.2.1⟩

/-- The function `atoi` reads back a decimal numeral that fits in an `int`. -/
theorem atoi_toDigits (p : Nat) (h : p < 2 ^ 31) : atoi (Nat.toDigits 10 p) = (p : Int) := by
  obtain ⟨d, ds, hcons, hd1, hd2, hd3, hd4⟩ := toDigits_eq_cons p
  have hval : digitsValue 0 (Nat.toDigits 10 p) = p :=
    digitsValue_toDigitsCore (p + 1) p (Nat.lt_succ_self p)
  have hstr : strtol (Nat.toDigits 10 p) = (p : Int) := by
    unfold strtol
    rw [hcons, List.dropWhile_cons_of_neg (by simp [hd2])]
    split
    · rename_i heq
      simp only [List.cons.injEq] at heq
      exact absurd heq.1 hd3
    · rename_i heq
      simp only [List.cons.injEq] at heq
      exact absurd heq.1 hd4
    · rw [← hcons, hval]
      have : (p : Int) ≤ 2 ^ 63 - 1 := by
        have : (p : Int) < 2 ^ 31 := by exact_mod_cast h
        omega
      exact min_eq_right this
  unfold atoi toInt32
  rw [hstr]
  have : (p : Int) < 2 ^ 31 := by exact_mod_cast h
  omega

/-! ## The endpoint descriptor (C4, C5, C6) -/

/-- C4: for every descriptor string, whatever the allocator does, the parser returns
-1 when the string does not start with `tcp@`, when no `:` occurs after that prefix,
or when the text after the first `:` converts with `atoi` to a non-positive port; and
then thread initialisation returns `TM_ECODE_FAILED` after its log line, without a
call that creates a socket and without storing anything in `*data`. -/
theorem C4_malformed_descriptor_rejected (env : InitEnv) (s : List Char)
    (h : ¬ tcpPrefix <+: cstr s ∨ ':' ∉ (cstr s).drop 4 ∨
      ∃ host t, (cstr s).drop 4 = host ++ ':' :: t ∧ ':' ∉ host ∧ atoi t ≤ 0) :
    (ParsePcapOverIPInput env.parse (some s) none 0).ret = -1 ∧
    (ReceivePcapOverIPThreadInit env (some s)).ret = TmEcode.TM_ECODE_FAILED ∧
    (ReceivePcapOverIPThreadInit env (some s)).data = none ∧
    (ReceivePcapOverIPThreadInit env (some s)).trace
      = [Event.SCLog LogMsg.invalidInputFormat] ∧
    (∀ e ∈ (ReceivePcapOverIPThreadInit env (some s)).trace, isConnectAttempt e = false) := by
  have hret : (ParsePcapOverIPInput env.parse (some s) none 0).ret = -1 := by
    cases h1 : env.parse.strdup_input with
    | false => simp [ParsePcapOverIPInput, h1]
    | true =>
      by_cases h2 : List.take 4 (cstr s) = tcpPrefix
      · rcases h with h | h | ⟨host, t, e, hc, ha⟩
        · exact absurd (List.prefix_iff_eq_take.mpr h2.symm) h
        · simp [ParsePcapOverIPInput, h1, h2, strchr_eq_none_of_not_mem _ _ h]
        · have hs : strchr (List.drop 4 (cstr s)) ':' = some host.length := by
            rw [e]; exact strchr_append_cons host t ':' hc
          have hd : List.drop (host.length + 1) (List.drop 4 (cstr s)) = t := by
            rw [e]; simp
          have hn : ¬ atoi t > 0 := by omega
          simp [ParsePcapOverIPInput, h1, h2, hs, hd, hn]
      · simp [ParsePcapOverIPInput, h1, h2]
  rw [ThreadInit_of_parse_failure env _ hret]
  exact ⟨hret, rfl, rfl, rfl, by simp [isConnectAttempt]⟩

/-- C4 at three descriptors, one for each case: `udp@1.2.3.4:5`, `tcp@1.2.3.4` and
`tcp@1.2.3.4:0`. -/
theorem C4_malformed_descriptor_rejected_witness :
    (¬ tcpPrefix <+: cstr exDescriptorUdp ∧
    (ParsePcapOverIPInput okInitEnv.parse (some exDescriptorUdp) none 0).ret = -1 ∧
    (ReceivePcapOverIPThreadInit okInitEnv (some exDescriptorUdp)).ret = TmEcode.TM_ECODE_FAILED ∧
    (ReceivePcapOverIPThreadInit okInitEnv (some exDescriptorUdp)).data = none ∧
    (ReceivePcapOverIPThreadInit okInitEnv (some exDescriptorUdp)).trace
      = [Event.SCLog LogMsg.invalidInputFormat] ∧
    (∀ e ∈ (ReceivePcapOverIPThreadInit okInitEnv (some exDescriptorUdp)).trace,
      isConnectAttempt e = false)) ∧
    (':' ∉ (cstr exDescriptorNoColon).drop 4 ∧
    (ParsePcapOverIPInput okInitEnv.parse (some exDescriptorNoColon) none 0).ret = -1 ∧
    (ReceivePcapOverIPThreadInit okInitEnv (some exDescriptorNoColon)).ret = TmEcode.TM_ECODE_FAILED ∧
    (ReceivePcapOverIPThreadInit okInitEnv (some exDescriptorNoColon)).data = none ∧
    (ReceivePcapOverIPThreadInit okInitEnv (some exDescriptorNoColon)).trace
      = [Event.SCLog LogMsg.invalidInputFormat] ∧
    (∀ e ∈ (ReceivePcapOverIPThreadInit okInitEnv (some exDescriptorNoColon)).trace,
      isConnectAttempt e = false)) ∧
    (((cstr exDescriptorPortZero).drop 4 = ['1', '.', '2', '.', '3', '.', '4'] ++ ':' :: ['0'] ∧
      ':' ∉ ['1', '.', '2', '.', '3', '.', '4'] ∧ atoi ['0'] ≤ 0) ∧
    (ParsePcapOverIPInput okInitEnv.parse (some exDescriptorPortZero) none 0).ret = -1 ∧
    (ReceivePcapOverIPThreadInit okInitEnv (some exDescriptorPortZero)).ret = TmEcode.TM_ECODE_FAILED ∧
    (ReceivePcapOverIPThreadInit okInitEnv (some exDescriptorPortZero)).data = none ∧
    (ReceivePcapOverIPThreadInit okInitEnv (some exDescriptorPortZero)).trace
      = [Event.SCLog LogMsg.invalidInputFormat] ∧
    (∀ e ∈ (ReceivePcapOverIPThreadInit okInitEnv (some exDescriptorPortZero)).trace,
      isConnectAttempt e = false)) :=
  ⟨⟨by decide, C4_malformed_descriptor_rejected okInitEnv exDescriptorUdp (Or.inl (by decide))⟩,
    ⟨by decide,
      C4_malformed_descriptor_rejected okInitEnv exDescriptorNoColon
        (Or.inr (Or.inl (by decide)))⟩,
    ⟨by decide,
      C4_malformed_descriptor_rejected okInitEnv exDescriptorPortZero
        (Or.inr (Or.inr ⟨['1', '.', '2', '.', '3', '.', '4'], ['0'], by decide, by decide,
          by decide⟩))⟩⟩

/-- C5: for every host without `:` and without NUL and every port `p` from 1 to
65535, when both string duplications succeed the parser applied to
`tcp@` ++ host ++ `:` ++ decimal numeral of `p` returns 0 with the host in
`*server_ip` and `p` in `*server_port`; and `tcp@127.0.0.1:4000` gives the host
`127.0.0.1` and the port 4000. -/
theorem C5_descriptor_parsed (host : List Char) (p : Nat) (ip0 : Option (List Char))
    (port0 : Int) (hc : ':' ∉ host) (hn : NUL ∉ host) (h1 : 1 ≤ p) (h2 : p ≤ 65535) :
    ParsePcapOverIPInput { strdup_input := true, strdup_ip := true }
        (some (tcpPrefix ++ host ++ ':' :: Nat.toDigits 10 p)) ip0 port0
      = { ret := 0, server_ip := some host, server_port := (p : Int) } ∧
    ParsePcapOverIPInput { strdup_input := true, strdup_ip := true }
        (some exDescriptor) none 0
      = { ret := 0, server_ip := some exHost, server_port := 4000 } := by
  constructor
  · have hdig : ∀ c ∈ Nat.toDigits 10 p, c ≠ NUL := fun c hcm =>
      (toDigitsCore_isdigit (p + 1) p c hcm).2
    have hcstr : cstr (tcpPrefix ++ (host ++ ':' :: Nat.toDigits 10 p))
        = tcpPrefix ++ (host ++ ':' :: Nat.toDigits 10 p) := by
      unfold cstr
      rw [List.takeWhile_eq_self_iff]
      intro x hx
      have hxn : x ≠ NUL := by
        rcases List.mem_append.mp hx with hx | hx
        · have hp : ∀ y ∈ tcpPrefix, y ≠ NUL := by decide
          exact hp x hx
        · rcases List.mem_append.mp hx with hx | hx
          · exact fun e => hn (e ▸ hx)
          · rcases List.mem_cons.mp hx with hx | hx
            · rw [hx]; decide
            · exact hdig x hx
      simpa using hxn
    have htake : List.take 4 (tcpPrefix ++ (host ++ ':' :: Nat.toDigits 10 p)) = tcpPrefix :=
      List.take_left' rfl
    have hdrop : List.drop 4 (tcpPrefix ++ (host ++ ':' :: Nat.toDigits 10 p))
        = host ++ ':' :: Nat.toDigits 10 p := List.drop_left' rfl
    have hs : strchr (host ++ ':' :: Nat.toDigits 10 p) ':' = some host.length :=
      strchr_append_cons host _ ':' hc
    have hip : List.take host.length (host ++ ':' :: Nat.toDigits 10 p) = host :=
      List.take_left' rfl
    have hrest : List.drop (host.length + 1) (host ++ ':' :: Nat.toDigits 10 p)
        = Nat.toDigits 10 p := by simp
    have hport : atoi (Nat.toDigits 10 p) = (p : Int) := atoi_toDigits p (by omega)
    have hpos : (p : Int) > 0 := by omega
    rw [List.append_assoc]
    simp only [ParsePcapOverIPInput, hcstr, htake, hdrop, hs, hip, hrest, hport, Bool.not_true,
      Bool.false_eq_true, if_false, ne_eq, not_true_eq_false, Option.isSome_some, true_and,
      hpos, if_true]
  · decide

/-- C5 at the host `example.org` and the port 65535. -/
theorem C5_descriptor_parsed_witness :
    ':' ∉ ['e', 'x', 'a', 'm', 'p', 'l', 'e', '.', 'o', 'r', 'g'] ∧
    NUL ∉ ['e', 'x', 'a', 'm', 'p', 'l', 'e', '.', 'o', 'r', 'g'] ∧
    1 ≤ 65535 ∧ 65535 ≤ 65535 ∧
    ParsePcapOverIPInput { strdup_input := true, strdup_ip := true }
        (some (tcpPrefix ++ ['e', 'x', 'a', 'm', 'p', 'l', 'e', '.', 'o', 'r', 'g']
          ++ ':' :: Nat.toDigits 10 65535)) none 0
      = { ret := 0, server_ip := some ['e', 'x', 'a', 'm', 'p', 'l', 'e', '.', 'o', 'r', 'g'],
          server_port := ((65535 : Nat) : Int) } ∧
    ParsePcapOverIPInput { strdup_input := true, strdup_ip := true }
        (some exDescriptor) none 0
      = { ret := 0, server_ip := some exHost, server_port := 4000 } :=
  ⟨by decide, by decide, by decide, by decide,
    C5_descriptor_parsed ['e', 'x', 'a', 'm', 'p', 'l', 'e', '.', 'o', 'r', 'g'] 65535 none 0
      (by decide) (by decide) (by decide) (by decide)⟩

/-- C6 at the failing input `tcp@127.0.0.1:70000`, every collaborator succeeding: the
parser accepts the descriptor with port 70000, thread initialisation succeeds, and
`connect` is called for port 4464, which is 70000 modulo 65536. -/
theorem C6_port_above_65535_accepted :
    (ParsePcapOverIPInput okInitEnv.parse (some exDescriptorBigPort) none 0)
      = { ret := 0, server_ip := some exHost, server_port := 70000 } ∧
    ReceivePcapOverIPThreadInit okInitEnv (some exDescriptorBigPort)
      = { ret := TmEcode.TM_ECODE_OK,
          data := some (PcapOverIPThreadVars.init 3 exHost 70000),
          trace := [Event.SCCalloc true, Event.socket 3, Event.inet_pton exHost 1,
            Event.connect exHost 4464 0, Event.SCLog LogMsg.connected] } ∧
    htons 70000 ≠ 70000 := by
  decide

/-- Every target that reaches `connect` has a positive port, and a non-empty host
whenever `inet_pton` rejects the empty string. -/
theorem ThreadInit_connect_target (env : InitEnv) (initdata : Option (List Char))
    (hempty : env.inet_pton [] ≤ 0) (ip : List Char) (port : Nat) (ret : Int)
    (hmem : Event.connect ip port ret ∈ (ReceivePcapOverIPThreadInit env initdata).trace) :
    ip ≠ [] ∧ 0 < (ParsePcapOverIPInput env.parse initdata none 0).server_port ∧
    port = htons (ParsePcapOverIPInput env.parse initdata none 0).server_port := by
  rcases Parse_ret_cases env.parse initdata none 0 with h0 | h0
  · obtain ⟨⟨h, hip⟩, hport⟩ := Parse_accept env.parse initdata h0
    unfold ReceivePcapOverIPThreadInit at hmem
    simp only [h0, lt_self_iff_false, if_false, hip, Option.getD_some,
      PcapOverIPThreadVars.init] at hmem
    split_ifs at hmem with c1 c2 c3 c4
    all_goals simp only [List.mem_cons, List.mem_singleton, List.not_mem_nil, or_false,
      Event.connect.injEq, reduceCtorEq, false_or, or_false] at hmem
    · obtain ⟨e1, e2, -⟩ := hmem
      refine ⟨?_, hport, e2⟩
      rintro rfl
      subst e1
      exact c3 hempty
    · obtain ⟨e1, e2, -⟩ := hmem
      refine ⟨?_, hport, e2⟩
      rintro rfl
      subst e1
      exact c3 hempty
  · rw [ThreadInit_of_parse_failure env _ h0] at hmem
    simp at hmem

end PcapOverIP
